import Mathlib

/-!
Shallow embedding of the background-removal core of `remove-background-nextjs`
(`src/lib/removeBackground.ts`, `src/lib/imageUtils.ts`, `src/lib/modelLoader.ts`).

Numbers that the JavaScript source manipulates as `number` are modelled as `ℚ`
(every constant appearing in the verified claims is exactly representable in
binary floating point and the arithmetic on them is exact there, so the
rational model agrees with the JavaScript evaluation at those inputs).  A
write into a `Uint8Array` is modelled by reduction modulo 256, which is
exactly the `ToUint8` conversion JavaScript performs on such writes.
Operations that can throw or reject in JavaScript are modelled with
`Except`/`Option` values so that a `try`/`catch` becomes a `match`, and
`async` functions are modelled by their synchronous data flow (an `await` of
a promise that may reject is an `Except` scrutinee).
-/

namespace RemoveBg

/-- JavaScript `Math.round` on a finite number: round half toward positive
infinity, i.e. `⌊x + 1/2⌋`. -/
def jsRound (q : ℚ) : ℤ := ⌊q + 1/2⌋

/-- JavaScript `Math.floor` on a nonnegative finite number, as a natural. -/
def jsFloorNat (q : ℚ) : ℕ := ⌊q⌋.toNat

/-- The `ToUint8` conversion performed when an integral number is stored into
a `Uint8Array`: reduction modulo 2^8 (no clamping). -/
def toUint8 (z : ℤ) : ℕ := (z % 256).toNat

/-- `removeBackground.ts` lines 216–217 / 245–246 / 324–325: the value
normalization applied to a raw mask sample `v` before it is stored into the
`Uint8Array` mask buffer:
`maskData[i] = value <= 1 ? Math.round(value * 255) : Math.round(value)`. -/
def normVal (v : ℚ) : ℕ :=
  if v ≤ 1 then toUint8 (jsRound (v * 255)) else toUint8 (jsRound v)

/-- JavaScript `a || b` applied to a possibly-missing numeric dimension, as in
`mask.width || width` (`removeBackground.ts` lines 205–206): a missing value
and the falsy value `0` both select the fallback. -/
def jsOr (a : Option ℕ) (b : ℕ) : ℕ :=
  match a with
  | some w => if w = 0 then b else w
  | none => b

/-- A freshly filled `Uint8Array` buffer of length `n` whose entry at index
`i` is `f i`: the net effect of the source's `for` loops that populate every
index of a zero-initialized buffer exactly once. -/
def buildBuf (n : ℕ) (f : ℕ → ℕ) : List ℕ :=
  (List.range n).map f

/-- Readback of a canvas returned by `mask.toCanvas()`: its dimensions and
the result of `getContext('2d')` followed by `getImageData`.  `ctx = none`
models a null 2d context; `ctx = some (.error ())` models `getImageData`
throwing (both are environment-determined); `ctx = some (.ok px)` gives the
RGBA bytes (row-major, 4 bytes per pixel) of `getImageData(...).data`. -/
structure MaskCanvas where
  width : ℕ
  height : ℕ
  ctx : Option (Except Unit (List ℕ))

/-- Environment outcome of `extractMaskFromImage`'s internal image load
(`removeBackground.ts` lines 260–300): the `Image` fed with the data URL can
fail to load (`img.onerror`, rejecting the promise), the scratch canvas's
`getContext` can return null (also rejecting), or the draw succeeds and
`getImageData(0, 0, targetWidth, targetHeight)` yields RGBA bytes. -/
inductive ImgLoad
  | loadFail
  | ctxFail
  | ok (pixels : List ℕ)

/-- The duck-typed `segment.mask` object (`removeBackground.ts` lines
173–229).  Each field is `none` when the corresponding property/method is
absent (or falsy).  `toCanvas`/`toDataURL` carry the outcome of calling the
method: `.error ()` models a thrown exception / rejected promise. -/
structure MaskObj where
  toCanvas : Option (Except Unit MaskCanvas)
  data : Option (List ℚ)
  width : Option ℕ
  height : Option ℕ
  toDataURL : Option (Except Unit ImgLoad)

/-- One entry of an array-shaped segmentation result. `falsy` models a
null/undefined entry; `obj mask score` models an object whose `mask` property
is present (truthy) or not, and whose `score` property is a number or not. -/
inductive Segment
  | falsy
  | obj (mask : Option MaskObj) (score : Option ℚ)

/-- The duck-typed shapes of a segmentation result that `extractMaskData`
discriminates (`removeBackground.ts` lines 145–255): a falsy value, an array
of segments, a non-array object carrying a raw numeric `data` buffer, or any
other truthy value. -/
inductive SegResult
  | null
  | arr (segs : List Segment)
  | tensor (data : List ℚ)
  | other

/-- `removeBackground.ts` lines 305–330 (`resizeMask`): nearest-neighbor
resample of a flat numeric mask, with value normalization at each sample.
The double loop writes `result[y*dstWidth + x]` for `y < dstHeight`,
`x < dstWidth`, sampling `data[floor(y*(srcHeight/dstHeight))*srcWidth +
floor(x*(srcWidth/dstWidth))]` with `|| 0` defaulting. -/
def resizeMask (data : List ℚ) (srcWidth srcHeight dstWidth dstHeight : ℕ) :
    List ℕ :=
  buildBuf (dstWidth * dstHeight) fun idx =>
    let y := idx / dstWidth
    let x := idx % dstWidth
    let srcX := jsFloorNat ((x : ℚ) * ((srcWidth : ℚ) / (dstWidth : ℚ)))
    let srcY := jsFloorNat ((y : ℚ) * ((srcHeight : ℚ) / (dstHeight : ℚ)))
    normVal (data.getD (srcY * srcWidth + srcX) 0)

/-- `removeBackground.ts` lines 335–360 (`resizeMaskFromImageData`):
nearest-neighbor resample of RGBA canvas bytes, reading the red channel
(`data[(srcY*srcWidth + srcX) * 4] || 0`), no value normalization; the store
into the `Uint8Array` reduces modulo 256. -/
def resizeMaskFromImageData (data : List ℕ)
    (srcWidth srcHeight dstWidth dstHeight : ℕ) : List ℕ :=
  buildBuf (dstWidth * dstHeight) fun idx =>
    let y := idx / dstWidth
    let x := idx % dstWidth
    let srcX := jsFloorNat ((x : ℚ) * ((srcWidth : ℚ) / (dstWidth : ℚ)))
    let srcY := jsFloorNat ((y : ℚ) * ((srcHeight : ℚ) / (dstHeight : ℚ)))
    (data.getD ((srcY * srcWidth + srcX) * 4) 0) % 256

/-- `removeBackground.ts` lines 260–300 (`extractMaskFromImage`): draw the
mask image onto a `targetWidth × targetHeight` scratch canvas and read the
red channel of every pixel; the promise rejects if the image fails to load or
the context is unavailable. -/
def extractMaskFromImage (img : ImgLoad) (targetWidth targetHeight : ℕ) :
    Except Unit (List ℕ) :=
  match img with
  | .loadFail => .error ()
  | .ctxFail => .error ()
  | .ok pixels =>
      .ok (buildBuf (targetWidth * targetHeight) fun i =>
        (pixels.getD (i * 4) 0) % 256)

/-- `removeBackground.ts` lines 178–200: the `mask.toCanvas` branch of
`extractMaskData`.  `next` is the code that follows the branch, reached when
the method is absent, when it (or `getImageData`) throws — the `catch` —, or
when `getContext('2d')` returns null.  The branch itself cannot reject, so a
hit is `.ok`; the continuation already carries its own `Except`. -/
def tryCanvasBuf (m : MaskObj) (width height : ℕ)
    (next : Except Unit (List ℕ)) : Except Unit (List ℕ) :=
  match m.toCanvas with
  | some (Except.ok c) =>
      match c.ctx with
      | some (Except.ok maskPixels) =>
          if c.width ≠ width ∨ c.height ≠ height then
            .ok (resizeMaskFromImageData maskPixels c.width c.height width height)
          else
            .ok (buildBuf (width * height) fun i => (maskPixels.getD (i * 4) 0) % 256)
      | some (Except.error _) => next
      | none => next
  | some (Except.error _) => next
  | none => next

/-- `removeBackground.ts` lines 202–220: the `mask.data` branch.  The native
dimensions default to the target via `mask.width || width`; a dimension
mismatch resamples, otherwise each raw value is normalized in place.  The
branch is synchronous and cannot reject. -/
def tryDataBuf (m : MaskObj) (width height : ℕ)
    (next : Except Unit (List ℕ)) : Except Unit (List ℕ) :=
  match m.data with
  | some data =>
      let maskWidth := jsOr m.width width
      let maskHeight := jsOr m.height height
      if maskWidth ≠ width ∨ maskHeight ≠ height then
        .ok (resizeMask data maskWidth maskHeight width height)
      else
        .ok (buildBuf (width * height) fun i => normVal (data.getD i 0))
  | none => next

/-- `removeBackground.ts` lines 223–229: the `mask.toDataURL` branch,
`return extractMaskFromImage(await mask.toDataURL(), width, height)` inside
a `try`.  Only `mask.toDataURL()` is awaited, so only its throw/rejection is
caught by the `catch` and falls through to `next`.  The promise returned by
`extractMaskFromImage` is returned *without* `await`: the async function's
result adopts it after the `try` block has exited, so its rejection (failed
image load or null scratch context) escapes the `catch` and propagates out
of `extractMaskData` — hence the branch result is passed through as is,
errors included. -/
def tryDataURLBuf (m : MaskObj) (width height : ℕ) (next : List ℕ) :
    Except Unit (List ℕ) :=
  match m.toDataURL with
  | some (Except.ok img) => extractMaskFromImage img width height
  | some (Except.error _) => .ok next
  | none => .ok next

/-- `removeBackground.ts` lines 233–238 and 251–254: the score-based binary
fallback (threshold 0.5), else the final fully-opaque fallback. -/
def afterMaskBuf (score : Option ℚ) (totalPixels : ℕ) : List ℕ :=
  match score with
  | some s => List.replicate totalPixels (if (1/2 : ℚ) < s then 255 else 0)
  | none => List.replicate totalPixels 255

/-- `removeBackground.ts` lines 145–255 (`extractMaskData`): normalize an
arbitrary-shaped segmentation result into a `width*height` opacity buffer.
The cascading `if` chain is mirrored by the chained branch functions above,
each taking the rest of the cascade as its fall-through continuation; each
`try`/`catch` becomes a `match` on an `Except`, whose `.error` branch falls
through exactly as the `catch` does in the source — with one exception that
the `Except` result type records: the un-awaited
`return extractMaskFromImage(...)` at line 225, whose rejection escapes the
`try`/`catch` and rejects `extractMaskData` itself (see `tryDataURLBuf`).
An array-shaped result that matches no branch ends in the final opaque
fallback because an array has no `data` property for the line-242 check. -/
def extractMaskData (result : SegResult) (width height : ℕ) :
    Except Unit (List ℕ) :=
  let totalPixels := width * height
  let fallback := List.replicate totalPixels 255
  match result with
  | .null => .ok fallback
  | .tensor data =>
      .ok (buildBuf totalPixels fun i =>
        if i < data.length then normVal (data.getD i 0) else 0)
  | .other => .ok fallback
  | .arr [] => .ok fallback
  | .arr (.falsy :: _) => .ok fallback
  | .arr (.obj maskOpt score :: _) =>
      let afterMask := afterMaskBuf score totalPixels
      match maskOpt with
      | none => .ok afterMask
      | some m =>
          tryCanvasBuf m width height
            (tryDataBuf m width height
              (tryDataURLBuf m width height afterMask))

/-- `removeBackground.ts` lines 130–133 (`applySegmentationMask`'s loop):
`for i in [0, maskData.length): pixels[i * 4 + 3] = maskData[i]`.
The target is the `Uint8ClampedArray` of an `ImageData`, whose store clamps
to `[0, 255]` (for the naturals of this model: `min · 255`); a store past the
end of a JavaScript typed array is silently dropped, as is `List.set` past
the end.  `n` counts the loop iterations (`maskData.length` at the call
site). -/
def setAlphas (pixels maskData : List ℕ) (n : ℕ) : List ℕ :=
  (List.range n).foldl
    (fun px i => px.set (i * 4 + 3) (min (maskData.getD i 0) 255)) pixels

/-- The compositing step: run the alpha loop over the whole mask buffer. -/
def applySegAlpha (pixels maskData : List ℕ) : List ℕ :=
  setAlphas pixels maskData maskData.length

/-- The geometry computed by `imageUtils.ts` lines 469–475
(`loadImageToCanvas`): uniform scale fitting the native image into a square
canvas of side `targetSize`, and the offsets centering it. -/
structure FitResult where
  scale : ℚ
  scaledWidth : ℚ
  scaledHeight : ℚ
  offsetX : ℚ
  offsetY : ℚ
deriving DecidableEq

/-- `imageUtils.ts` lines 469–475:
`scale = Math.min(targetSize / img.width, targetSize / img.height)`,
`scaledWidth = img.width * scale`, `scaledHeight = img.height * scale`,
`offsetX = (targetSize - scaledWidth) / 2`,
`offsetY = (targetSize - scaledHeight) / 2`. -/
def fitToCanvas (nativeWidth nativeHeight targetSize : ℚ) : FitResult :=
  let scale := min (targetSize / nativeWidth) (targetSize / nativeHeight)
  let scaledWidth := nativeWidth * scale
  let scaledHeight := nativeHeight * scale
  { scale := scale
    scaledWidth := scaledWidth
    scaledHeight := scaledHeight
    offsetX := (targetSize - scaledWidth) / 2
    offsetY := (targetSize - scaledHeight) / 2 }

/-! ### Model loader (`src/lib/modelLoader.ts`)

The module-level mutable state is the pair of variables
`segmenterInstance` / `loadingPromise` (lines 35–39).  `getSegmenter`
(lines 59–85) runs synchronously up to its first `await`; that synchronous
prefix is `getSegmenterSync` below, which either returns the cached
instance, joins the in-flight promise, or registers a fresh promise for the
load it starts.  The continuation after `await loadingPromise` is
`getSegmenterResolve`: on success the instance is cached, on failure the
in-flight promise is cleared and the error is re-thrown.  Promises and
instances are identified by tokens (`ℕ`). -/

/-- The module-level state of `modelLoader.ts` (lines 35–39). -/
structure LoaderState where
  segmenterInstance : Option ℕ
  loadingPromise : Option ℕ
deriving DecidableEq

/-- The state before any load: both variables `null`. -/
def emptyLoader : LoaderState := { segmenterInstance := none, loadingPromise := none }

/-- What one `getSegmenter` call observes synchronously (lines 63–75):
the cached instance, the already in-flight promise, or the promise of the
model load this very call starts. -/
inductive GetOutcome
  | cachedInstance (inst : ℕ)
  | joinedExisting (promise : ℕ)
  | startedLoad (promise : ℕ)
deriving DecidableEq

/-- The synchronous prefix of `getSegmenter` (lines 63–75): return the
instance if cached; else return the in-flight promise if one exists; else
store a fresh promise in `loadingPromise` and start the load. -/
def getSegmenterSync (s : LoaderState) (freshPromise : ℕ) :
    GetOutcome × LoaderState :=
  match s.segmenterInstance with
  | some inst => (.cachedInstance inst, s)
  | none =>
    match s.loadingPromise with
    | some p => (.joinedExisting p, s)
    | none =>
      (.startedLoad freshPromise, { s with loadingPromise := some freshPromise })

/-- The continuation of `getSegmenter` after `await loadingPromise`
(lines 77–84): on success cache the instance and return it; on failure set
`loadingPromise = null` and re-throw the originating error. -/
def getSegmenterResolve (s : LoaderState) (outcome : Except ℕ ℕ) :
    Except ℕ ℕ × LoaderState :=
  match outcome with
  | .ok inst => (.ok inst, { s with segmenterInstance := some inst })
  | .error e => (.error e, { s with loadingPromise := none })

/-- A burst of `getSegmenter` calls whose synchronous prefixes all run before
the in-flight load settles (the single-threaded event loop interleaves whole
synchronous prefixes): fold `getSegmenterSync` over the fresh promise tokens
the successive calls would allocate. -/
def runGetCalls : LoaderState → List ℕ → List GetOutcome × LoaderState
  | s, [] => ([], s)
  | s, p :: ps =>
    let call := getSegmenterSync s p
    let rest := runGetCalls call.2 ps
    (call.1 :: rest.1, rest.2)

/-- Whether an outcome started a fresh model load. -/
def isStart : GetOutcome → Bool
  | .startedLoad _ => true
  | _ => false

/-! ### Progress normalization (`modelLoader.ts` lines 125–141) -/

/-- The `status` values of a raw progress event from the underlying loader. -/
inductive PStatus
  | initiate
  | download
  | progress
  | done
  | ready
deriving DecidableEq

/-- A raw progress event: its status, and the byte counters which are present
only on per-file `progress` events. -/
structure ProgressInfo where
  status : PStatus
  loaded : Option ℕ
  total : Option ℕ

/-- `modelLoader.ts` lines 125–141 (`normalizeProgress`): the percentage of
the returned event.  `data.loaded && data.total` is a JavaScript truthiness
test, so an absent counter and a zero counter both fail it (modelled by
`getD 0 ≠ 0`); `progress = Math.round((loaded / total) * 100)` in the byte
branch, 100 for `done`/`ready`, else the initial 0. -/
def normalizeProgress (d : ProgressInfo) : ℕ :=
  if d.status = .progress ∧ d.loaded.getD 0 ≠ 0 ∧ d.total.getD 0 ≠ 0 then
    (jsRound (((d.loaded.getD 0 : ℚ) / (d.total.getD 0 : ℚ)) * 100)).toNat
  else if d.status = .done then 100
  else if d.status = .ready then 100
  else 0

/-! ### Basic lemmas about the buffers -/

lemma buildBuf_length (n : ℕ) (f : ℕ → ℕ) : (buildBuf n f).length = n := by
  simp [buildBuf]

lemma buildBuf_getElem? (f : ℕ → ℕ) {i n : ℕ} (h : i < n) :
    (buildBuf n f)[i]? = some (f i) := by
  simp [buildBuf, List.getElem?_map, List.getElem?_range h]

lemma resizeMask_length (data : List ℚ) (sw sh dw dh : ℕ) :
    (resizeMask data sw sh dw dh).length = dw * dh :=
  buildBuf_length _ _

lemma resizeMaskFromImageData_length (data : List ℕ) (sw sh dw dh : ℕ) :
    (resizeMaskFromImageData data sw sh dw dh).length = dw * dh :=
  buildBuf_length _ _

lemma extractMaskFromImage_ok_length {img : ImgLoad} {w h : ℕ} {buf : List ℕ}
    (hok : extractMaskFromImage img w h = .ok buf) : buf.length = w * h := by
  cases img with
  | loadFail => exact absurd hok (by simp [extractMaskFromImage])
  | ctxFail => exact absurd hok (by simp [extractMaskFromImage])
  | ok px =>
      simp only [extractMaskFromImage, Except.ok.injEq] at hok
      rw [← hok, buildBuf_length]

/-- Index arithmetic for row-major buffers. -/
lemma rowMajor_div {x w : ℕ} (y : ℕ) (hx : x < w) : (y * w + x) / w = y := by
  rw [mul_comm, Nat.mul_add_div (by omega), Nat.div_eq_of_lt hx, Nat.add_zero]

lemma rowMajor_mod {x w : ℕ} (y : ℕ) (hx : x < w) : (y * w + x) % w = x := by
  rw [mul_comm, Nat.mul_add_mod, Nat.mod_eq_of_lt hx]

lemma rowMajor_lt {x y w h : ℕ} (hx : x < w) (hy : y < h) :
    y * w + x < w * h := by
  calc y * w + x < y * w + w := by omega
    _ = (y + 1) * w := by ring
    _ ≤ h * w := Nat.mul_le_mul_right w (by omega)
    _ = w * h := Nat.mul_comm h w

lemma afterMaskBuf_length (score : Option ℚ) (n : ℕ) :
    (afterMaskBuf score n).length = n := by
  cases score <;> simp [afterMaskBuf]

lemma tryDataURLBuf_ok_length (m : MaskObj) (w h : ℕ) {next : List ℕ}
    (hn : next.length = w * h) {buf : List ℕ}
    (hok : tryDataURLBuf m w h next = .ok buf) : buf.length = w * h := by
  unfold tryDataURLBuf at hok
  split at hok
  · exact extractMaskFromImage_ok_length hok
  · rw [Except.ok.injEq] at hok
    exact hok ▸ hn
  · rw [Except.ok.injEq] at hok
    exact hok ▸ hn

lemma tryDataBuf_ok_length (m : MaskObj) (w h : ℕ) {next : Except Unit (List ℕ)}
    (hn : ∀ {buf : List ℕ}, next = .ok buf → buf.length = w * h)
    {buf : List ℕ} (hok : tryDataBuf m w h next = .ok buf) :
    buf.length = w * h := by
  unfold tryDataBuf at hok
  split at hok
  · dsimp only at hok
    split at hok <;> rw [Except.ok.injEq] at hok <;> subst hok
    · exact resizeMask_length ..
    · exact buildBuf_length ..
  · exact hn hok

lemma tryCanvasBuf_ok_length (m : MaskObj) (w h : ℕ)
    {next : Except Unit (List ℕ)}
    (hn : ∀ {buf : List ℕ}, next = .ok buf → buf.length = w * h)
    {buf : List ℕ} (hok : tryCanvasBuf m w h next = .ok buf) :
    buf.length = w * h := by
  unfold tryCanvasBuf at hok
  split at hok
  · split at hok
    · split at hok <;> rw [Except.ok.injEq] at hok <;> subst hok
      · exact resizeMaskFromImageData_length ..
      · exact buildBuf_length ..
    · exact hn hok
    · exact hn hok
  · exact hn hok
  · exact hn hok

/-- Whenever `extractMaskData`'s promise fulfills, the delivered buffer has
length exactly `width * height`; the sole rejection source is the
un-awaited `extractMaskFromImage` promise of the `toDataURL` branch. -/
lemma extractMaskData_ok_length {r : SegResult} {W H : ℕ} {buf : List ℕ}
    (hok : extractMaskData r W H = .ok buf) : buf.length = W * H := by
  cases r with
  | null =>
    rw [extractMaskData, Except.ok.injEq] at hok
    simp [← hok]
  | other =>
    rw [extractMaskData, Except.ok.injEq] at hok
    simp [← hok]
  | tensor data =>
    rw [extractMaskData, Except.ok.injEq] at hok
    rw [← hok, buildBuf_length]
  | arr segs =>
    match segs with
    | [] =>
      rw [extractMaskData, Except.ok.injEq] at hok
      simp [← hok]
    | .falsy :: rest =>
      rw [extractMaskData, Except.ok.injEq] at hok
      simp [← hok]
    | .obj maskOpt score :: rest =>
      cases maskOpt with
      | none =>
        rw [extractMaskData, Except.ok.injEq] at hok
        rw [← hok, afterMaskBuf_length]
      | some m =>
        have hok' : tryCanvasBuf m W H
            (tryDataBuf m W H
              (tryDataURLBuf m W H (afterMaskBuf score (W * H)))) = .ok buf := hok
        exact tryCanvasBuf_ok_length _ _ _
          (fun h => tryDataBuf_ok_length _ _ _
            (fun h' => tryDataURLBuf_ok_length _ _ _ (afterMaskBuf_length ..) h') h)
          hok'

/-- C1: the claim is right about the intent but wrong about the code.  The
`toDataURL` branch (`removeBackground.ts` line 225) returns the
`extractMaskFromImage` promise without `await`, so when the inner image
load fails (or the scratch context is null) the rejection escapes the
surrounding `try`/`catch` — whose handler was written to swallow exactly
this failure — and `extractMaskData`'s own promise rejects instead of
degrading to a fallback buffer: for a segment whose mask offers only a
`toDataURL` method, a failing image load or a null context makes
`extractMaskData` reject for every target size. -/
theorem extractMaskData_toDataURL_rejection (W H : ℕ) :
    extractMaskData
        (.arr [.obj (some ⟨none, none, none, none, some (.ok .loadFail)⟩) none])
        W H = .error () ∧
    extractMaskData
        (.arr [.obj (some ⟨none, none, none, none, some (.ok .ctxFail)⟩) none])
        W H = .error () :=
  ⟨rfl, rfl⟩

/-- C7: the null result, the empty array, and a singleton array whose only
segment is an empty object (no mask, no score) each fulfill with the fully
opaque fallback buffer: `width * height` entries all equal to 255. -/
theorem extractMaskData_opaque_fallbacks (W H : ℕ) :
    extractMaskData .null W H = .ok (List.replicate (W * H) 255) ∧
    extractMaskData (.arr []) W H = .ok (List.replicate (W * H) 255) ∧
    extractMaskData (.arr [.obj none none]) W H =
      .ok (List.replicate (W * H) 255) := by
  refine ⟨rfl, rfl, ?_⟩
  simp [extractMaskData, afterMaskBuf]

lemma jsOr_self (w : ℕ) : jsOr (some w) w = w := by
  show (if w = 0 then w else w) = w
  split <;> rfl

/-- The raw-data branch with native dimensions equal to the target fulfills
with the pointwise value normalization of the buffer (no rejection: the
branch is synchronous). -/
lemma extractMaskData_rawMatching (d : List ℚ) (W H : ℕ) :
    extractMaskData
        (.arr [.obj (some ⟨none, some d, some W, some H, none⟩) none]) W H =
      .ok (buildBuf (W * H) (fun i => normVal (d.getD i 0))) := by
  simp [extractMaskData, tryCanvasBuf, tryDataBuf, jsOr_self]

lemma resizeMask_getElem? (data : List ℚ) (sW sH dW dH : ℕ) {x y : ℕ}
    (hx : x < dW) (hy : y < dH) :
    (resizeMask data sW sH dW dH)[y * dW + x]? =
      some (normVal (data.getD
        (jsFloorNat ((y : ℚ) * ((sH : ℚ) / (dH : ℚ))) * sW +
         jsFloorNat ((x : ℚ) * ((sW : ℚ) / (dW : ℚ)))) 0)) := by
  rw [resizeMask, buildBuf_getElem? _ (rowMajor_lt hx hy)]
  simp only [rowMajor_div y hx, rowMajor_mod y hx]

/-- C2: at every target pixel `(x, y)`, the resampled buffer holds the
value-normalized source sample at
`(floor(x * srcW/dstW), floor(y * srcH/dstH))`; the resampling is a function
of its inputs (hence deterministic), and resampling the 2×2 source mask
`[0,255,255,0]` to 4×4 yields the explicit 16-value output whose entries all
equal one of the source values 0 and 255 — no interpolated values. -/
theorem resizeMask_nearest_neighbor :
    (∀ (data : List ℚ) (srcW srcH dstW dstH x y : ℕ), x < dstW → y < dstH →
      (resizeMask data srcW srcH dstW dstH)[y * dstW + x]? =
        some (normVal (data.getD
          (jsFloorNat ((y : ℚ) * ((srcH : ℚ) / (dstH : ℚ))) * srcW +
           jsFloorNat ((x : ℚ) * ((srcW : ℚ) / (dstW : ℚ)))) 0))) ∧
    resizeMask [0, 255, 255, 0] 2 2 4 4 =
      [0, 0, 255, 255, 0, 0, 255, 255, 255, 255, 0, 0, 255, 255, 0, 0] ∧
    ∀ v ∈ resizeMask [0, 255, 255, 0] 2 2 4 4, v = 0 ∨ v = 255 := by
  have hconc : resizeMask [0, 255, 255, 0] 2 2 4 4 =
      [0, 0, 255, 255, 0, 0, 255, 255, 255, 255, 0, 0, 255, 255, 0, 0] := by
    norm_num [resizeMask, buildBuf, List.range_succ, jsFloorNat, normVal,
      jsRound, toUint8]
    decide
  refine ⟨fun data sW sH dW dH x y hx hy => resizeMask_getElem? data sW sH dW dH hx hy,
    hconc, fun v hv => ?_⟩
  rw [hconc] at hv
  simp only [List.mem_cons, List.not_mem_nil, or_false] at hv
  rcases hv with h | h | h | h | h | h | h | h | h | h | h | h | h | h | h | h <;>
    simp [h]

/-- Witness for C2: the pointwise formula instantiated at target pixel
`(x, y) = (1, 2)` of the 2×2 → 4×4 resample. -/
theorem resizeMask_nearest_neighbor_witness :
    1 < 4 ∧ 2 < 4 ∧
    (resizeMask [0, 255, 255, 0] 2 2 4 4)[2 * 4 + 1]? = some 255 := by
  refine ⟨by norm_num, by norm_num, ?_⟩
  have h := resizeMask_nearest_neighbor.1 [0, 255, 255, 0] 2 2 4 4 1 2
    (by norm_num) (by norm_num)
  rw [h]
  norm_num [normVal, jsFloorNat, jsRound, toUint8]
  decide

lemma getD_bounds {d : List ℚ} (hb : ∀ v ∈ d, 0 ≤ v ∧ v ≤ 255) (i : ℕ) :
    0 ≤ d.getD i 0 ∧ d.getD i 0 ≤ 255 := by
  rw [List.getD_eq_getElem?_getD]
  rcases h : d[i]? with _ | v
  · simp
  · simpa using hb v (List.getElem?_mem h)

lemma jsRound_nonneg {q : ℚ} (h : 0 ≤ q) : 0 ≤ jsRound q := by
  unfold jsRound
  exact Int.floor_nonneg.mpr (by linarith)

lemma jsRound_lt_256 {q : ℚ} (h : q < 511/2) : jsRound q < 256 := by
  unfold jsRound
  rw [Int.floor_lt]
  push_cast
  linarith

/-- For samples in the documented range (fractions in `[0,1]` or bytes in
`[0,255]`) the stored value is exactly the rounded value, no wraparound. -/
lemma normVal_eq_round {v : ℚ} (h0 : 0 ≤ v) (h255 : v ≤ 255) :
    normVal v = if v ≤ 1 then (jsRound (v * 255)).toNat
                else (jsRound v).toNat := by
  unfold normVal toUint8
  split
  · rename_i h1
    rw [Int.emod_eq_of_lt (jsRound_nonneg (by positivity))
      (jsRound_lt_256 (by nlinarith))]
  · rw [Int.emod_eq_of_lt (jsRound_nonneg h0) (jsRound_lt_256 (by linarith))]

/-- C3: when a segment's mask carries a raw numeric buffer whose declared
dimensions match the target, each raw value `v` in the documented range is
stored as `round(v * 255)` when `v ≤ 1` and as `round(v)` otherwise, with
entries beyond the buffer defaulting to 0; in particular the buffer
`[0.0, 0.5, 1.0, 128, 255]` at target 5×1 yields `[0, 128, 255, 128, 255]`. -/
theorem extractMaskData_value_range_normalization :
    (∀ (d : List ℚ) (W H : ℕ), (∀ v ∈ d, 0 ≤ v ∧ v ≤ 255) → ∀ i < W * H,
      ∀ buf : List ℕ,
        extractMaskData
            (.arr [.obj (some ⟨none, some d, some W, some H, none⟩) none]) W H =
          .ok buf →
        buf[i]? =
          some (if d.getD i 0 ≤ 1 then (jsRound (d.getD i 0 * 255)).toNat
                else (jsRound (d.getD i 0)).toNat)) ∧
    (∀ (d : List ℚ) (W H : ℕ), ∃ buf : List ℕ,
      extractMaskData
          (.arr [.obj (some ⟨none, some d, some W, some H, none⟩) none]) W H =
        .ok buf) ∧
    extractMaskData
        (.arr [.obj (some ⟨none, some [0, 1/2, 1, 128, 255], some 5, some 1, none⟩)
          none]) 5 1 =
      .ok [0, 128, 255, 128, 255] := by
  refine ⟨?_, ?_, ?_⟩
  · intro d W H hb i hi buf hok
    rw [extractMaskData_rawMatching, Except.ok.injEq] at hok
    rw [← hok, buildBuf_getElem? _ hi,
      normVal_eq_round (getD_bounds hb i).1 (getD_bounds hb i).2]
  · intro d W H
    exact ⟨_, extractMaskData_rawMatching d W H⟩
  · rw [extractMaskData_rawMatching]
    norm_num [buildBuf, List.range_succ, normVal, jsRound, toUint8]
    decide

/-- Witness for C3: the pointwise rule instantiated at index 1 of the target
buffer for the raw input `[0.0, 0.5, 1.0, 128, 255]`. -/
theorem extractMaskData_value_range_normalization_witness :
    (∀ v ∈ ([0, 1/2, 1, 128, 255] : List ℚ), 0 ≤ v ∧ v ≤ 255) ∧ 1 < 5 * 1 ∧
    extractMaskData
        (.arr [.obj (some ⟨none, some [0, 1/2, 1, 128, 255], some 5, some 1, none⟩)
          none]) 5 1 =
      .ok [0, 128, 255, 128, 255] ∧
    ([0, 128, 255, 128, 255] : List ℕ)[1]? = some 128 := by
  have hb : ∀ v ∈ ([0, 1/2, 1, 128, 255] : List ℚ), 0 ≤ v ∧ v ≤ 255 := by
    intro v hv
    simp only [List.mem_cons, List.not_mem_nil, or_false] at hv
    rcases hv with h | h | h | h | h <;> rw [h] <;> norm_num
  have hok := extractMaskData_value_range_normalization.2.2
  refine ⟨hb, by norm_num, hok, ?_⟩
  have h := extractMaskData_value_range_normalization.1
    [0, 1/2, 1, 128, 255] 5 1 hb 1 (by norm_num) [0, 128, 255, 128, 255] hok
  rw [h]
  norm_num [jsRound]
  decide

/-- C10: a raw numeric mask value `v > 255` (dimensions matching, no
resampling) is stored as `round(v)` reduced modulo 256 — not clamped to
255 — because the store target is a `Uint8Array`; `v = 256` yields opacity 0
and `v = 300` yields 44, in both the per-segment raw-data path and the
top-level tensor path. -/
theorem extractMaskData_uint8_wraparound :
    (∀ v : ℚ, 255 < v →
      extractMaskData
          (.arr [.obj (some ⟨none, some [v], some 1, some 1, none⟩) none]) 1 1 =
        .ok [((jsRound v) % 256).toNat] ∧
      extractMaskData (.tensor [v]) 1 1 = .ok [((jsRound v) % 256).toNat]) ∧
    extractMaskData (.tensor [256]) 1 1 = .ok [0] ∧
    extractMaskData (.tensor [300]) 1 1 = .ok [44] ∧
    extractMaskData
        (.arr [.obj (some ⟨none, some [(256 : ℚ)], some 1, some 1, none⟩) none]) 1 1 =
      .ok [0] ∧
    extractMaskData
        (.arr [.obj (some ⟨none, some [(300 : ℚ)], some 1, some 1, none⟩) none]) 1 1 =
      .ok [44] := by
  have hgen : ∀ v : ℚ, 255 < v →
      extractMaskData
          (.arr [.obj (some ⟨none, some [v], some 1, some 1, none⟩) none]) 1 1 =
        .ok [((jsRound v) % 256).toNat] ∧
      extractMaskData (.tensor [v]) 1 1 = .ok [((jsRound v) % 256).toNat] := by
    intro v hv
    have hnv : normVal v = ((jsRound v) % 256).toNat := by
      unfold normVal toUint8
      rw [if_neg (by linarith)]
    constructor
    · rw [extractMaskData_rawMatching]
      simp [buildBuf, List.range_succ, hnv]
    · show Except.ok (buildBuf 1 _) = _
      simp [buildBuf, List.range_succ, hnv]
  refine ⟨hgen, ?_, ?_, ?_, ?_⟩
  · rw [(hgen 256 (by norm_num)).2]
    norm_num [jsRound]
  · rw [(hgen 300 (by norm_num)).2]
    norm_num [jsRound]
    decide
  · rw [(hgen 256 (by norm_num)).1]
    norm_num [jsRound]
  · rw [(hgen 300 (by norm_num)).1]
    norm_num [jsRound]
    decide

/-- Witness for C10: the wraparound rule applied at `v = 300`. -/
theorem extractMaskData_uint8_wraparound_witness :
    (255 : ℚ) < 300 ∧ extractMaskData (.tensor [300]) 1 1 = .ok [44] := by
  refine ⟨by norm_num, ?_⟩
  rw [(extractMaskData_uint8_wraparound.1 300 (by norm_num)).2]
  norm_num [jsRound]
  decide

lemma setAlphas_zero (p m : List ℕ) : setAlphas p m 0 = p := rfl

lemma setAlphas_succ (p m : List ℕ) (n : ℕ) :
    setAlphas p m (n + 1) =
      (setAlphas p m n).set (n * 4 + 3) (min (m.getD n 0) 255) := by
  rw [setAlphas, List.range_succ, List.foldl_append]
  rfl

lemma setAlphas_length (p m : List ℕ) (n : ℕ) :
    (setAlphas p m n).length = p.length := by
  induction n with
  | zero => rfl
  | succ n ih => rw [setAlphas_succ, List.length_set, ih]

/-- The net effect of the alpha-write loop: position `j` holds the (clamped)
mask value of pixel `j / 4` when `j` is an alpha slot the loop reached, and
the original byte otherwise; out-of-range writes are dropped. -/
lemma setAlphas_getElem? (p m : List ℕ) (n j : ℕ) :
    (setAlphas p m n)[j]? =
      if j % 4 = 3 ∧ j / 4 < n then
        (if j < p.length then some (min (m.getD (j / 4) 0) 255) else none)
      else p[j]? := by
  induction n with
  | zero =>
    rw [if_neg (by omega)]
    rfl
  | succ n ih =>
    rw [setAlphas_succ, List.getElem?_set]
    by_cases h : n * 4 + 3 = j
    · subst h
      have h4 : (n * 4 + 3) / 4 = n := by omega
      rw [if_pos rfl, setAlphas_length,
        if_pos (show (n * 4 + 3) % 4 = 3 ∧ (n * 4 + 3) / 4 < n + 1 by omega), h4]
    · rw [if_neg h, ih]
      by_cases hc : j % 4 = 3 ∧ j / 4 < n + 1
      · rw [if_pos hc, if_pos (by omega)]
      · rw [if_neg hc, if_neg (by omega)]

/-- C8: compositing writes the opacity buffer into the alpha channel only —
for every pixel `i < width * height` the output byte at position `i*4 + 3`
equals `opacityBuffer[i]` (opacity values are bytes, so the clamped store is
exact), every byte at a non-alpha position is unchanged from the input — and
applying the composite step twice with the same opacity buffer equals
applying it once (so in particular the alpha channels agree). -/
theorem applySegAlpha_alpha_only_and_idempotent :
    (∀ (pixels maskData : List ℕ) (W H : ℕ),
      pixels.length = 4 * (W * H) → maskData.length = W * H →
      (∀ v ∈ maskData, v ≤ 255) →
      (∀ i < W * H, (applySegAlpha pixels maskData)[i * 4 + 3]? =
          some (maskData.getD i 0)) ∧
      (∀ j, j % 4 ≠ 3 → (applySegAlpha pixels maskData)[j]? = pixels[j]?)) ∧
    (∀ pixels maskData : List ℕ,
      applySegAlpha (applySegAlpha pixels maskData) maskData =
        applySegAlpha pixels maskData) := by
  constructor
  · intro pixels maskData W H hp hm hb
    constructor
    · intro i hi
      have hm' : i < maskData.length := by omega
      have hval : maskData.getD i 0 ≤ 255 := by
        rw [List.getD_eq_getElem?_getD]
        rcases h : maskData[i]? with _ | v
        · simp
        · simpa using hb v (List.getElem?_mem h)
      rw [applySegAlpha, setAlphas_getElem?,
        if_pos (show (i * 4 + 3) % 4 = 3 ∧ (i * 4 + 3) / 4 < maskData.length by omega),
        if_pos (by omega)]
      have h4 : (i * 4 + 3) / 4 = i := by omega
      rw [h4, min_eq_left hval]
    · intro j hj
      rw [applySegAlpha, setAlphas_getElem?, if_neg (by omega)]
  · intro pixels maskData
    apply List.ext_getElem?
    intro j
    rw [applySegAlpha, applySegAlpha, setAlphas_getElem?, setAlphas_getElem?,
      setAlphas_length]
    split <;> rfl

/-- Witness for C8: a 1×1 image (bytes `[10, 20, 30, 40]`) composited with
the opacity buffer `[7]`: alpha slot 3 receives 7, byte 0 is untouched. -/
theorem applySegAlpha_witness :
    ([10, 20, 30, 40] : List ℕ).length = 4 * (1 * 1) ∧
    ([7] : List ℕ).length = 1 * 1 ∧
    (∀ v ∈ ([7] : List ℕ), v ≤ 255) ∧ 0 < 1 * 1 ∧ ¬ (0 % 4 = 3) ∧
    (applySegAlpha [10, 20, 30, 40] [7])[0 * 4 + 3]? =
      some (([7] : List ℕ).getD 0 0) ∧
    (applySegAlpha [10, 20, 30, 40] [7])[0]? = ([10, 20, 30, 40] : List ℕ)[0]? := by
  refine ⟨by decide, by decide, by decide, by decide, by decide, ?_, ?_⟩
  · exact (applySegAlpha_alpha_only_and_idempotent.1 [10, 20, 30, 40] [7] 1 1
      (by decide) (by decide) (by decide)).1 0 (by decide)
  · exact (applySegAlpha_alpha_only_and_idempotent.1 [10, 20, 30, 40] [7] 1 1
      (by decide) (by decide) (by decide)).2 0 (by decide)

/-- C9: fitting a 2000×1000 image into a 1024×1024 canvas uses the uniform
scale `min(1024/2000, 1024/1000) = 0.512`, producing a drawn region of
exactly 1024×512 at offsets `(0, 256)`, and the vertical border is split
evenly: the space below the region equals the offset above it. -/
theorem fitToCanvas_letterbox :
    fitToCanvas 2000 1000 1024 =
      { scale := 64/125, scaledWidth := 1024, scaledHeight := 512,
        offsetX := 0, offsetY := 256 } ∧
    (1024 : ℚ) - (fitToCanvas 2000 1000 1024).offsetY -
        (fitToCanvas 2000 1000 1024).scaledHeight =
      (fitToCanvas 2000 1000 1024).offsetY := by
  have h : fitToCanvas 2000 1000 1024 =
      { scale := 64/125, scaledWidth := 1024, scaledHeight := 512,
        offsetX := 0, offsetY := 256 } := by
    rw [fitToCanvas]
    rw [min_eq_left (by norm_num)]
    norm_num [FitResult.mk.injEq]
  rw [h]
  norm_num

/-- Counterexample for C4: the raw event sequence `done` (one model file
finished) followed by a byte-progress event `loaded=1, total=2` of the next
file — both emittable by the underlying loader in one run — is normalized to
the percentages `[100, 50]`, which is decreasing, so the produced sequence
is not monotonic. -/
theorem normalizeProgress_not_monotonic :
    List.map normalizeProgress
        [⟨.done, none, none⟩, ⟨.progress, some 1, some 2⟩] = [100, 50] ∧
    ¬ List.Chain' (· ≤ ·)
        (List.map normalizeProgress
          [⟨.done, none, none⟩, ⟨.progress, some 1, some 2⟩]) := by
  have h : List.map normalizeProgress
      [⟨.done, none, none⟩, ⟨.progress, some 1, some 2⟩] = [100, 50] := by
    simp [normalizeProgress]
    norm_num [jsRound]
    decide
  refine ⟨h, by rw [h]; simp [List.chain'_cons]⟩

/-- C4 (amended): every percentage produced by `normalizeProgress` is an
integer in `[0, 100]` whenever the byte counters satisfy `loaded ≤ total`;
`initiate` maps to 0 and `done`/`ready` map to 100; and within a single
file's byte-progress events (fixed `total`, non-decreasing `loaded`) the
percentages are non-decreasing.  (Across phase or file boundaries the
sequence need not be monotonic — see the counterexample.) -/
theorem normalizeProgress_amended :
    (∀ d : ProgressInfo, d.loaded.getD 0 ≤ d.total.getD 0 →
        normalizeProgress d ≤ 100) ∧
    (∀ l t, normalizeProgress ⟨.initiate, l, t⟩ = 0) ∧
    (∀ l t, normalizeProgress ⟨.done, l, t⟩ = 100) ∧
    (∀ l t, normalizeProgress ⟨.ready, l, t⟩ = 100) ∧
    (∀ t l₁ l₂, l₁ ≤ l₂ → l₂ ≤ t →
        normalizeProgress ⟨.progress, some l₁, some t⟩ ≤
          normalizeProgress ⟨.progress, some l₂, some t⟩) := by
  refine ⟨?_, ?_, ?_, ?_, ?_⟩
  · intro d hle
    unfold normalizeProgress
    split
    · rename_i hc
      obtain ⟨-, hl, ht⟩ := hc
      have htpos : (0 : ℚ) < (d.total.getD 0 : ℚ) := by
        exact_mod_cast Nat.pos_of_ne_zero ht
      have hq : ((d.loaded.getD 0 : ℚ) / (d.total.getD 0 : ℚ)) * 100 ≤ 100 := by
        have h1 : (d.loaded.getD 0 : ℚ) / (d.total.getD 0 : ℚ) ≤ 1 :=
          (div_le_one htpos).mpr (by exact_mod_cast hle)
        nlinarith
      rw [Int.toNat_le]
      have h101 : jsRound (((d.loaded.getD 0 : ℚ) / (d.total.getD 0 : ℚ)) * 100) < 101 := by
        unfold jsRound
        rw [Int.floor_lt]
        push_cast
        linarith
      omega
    · split
      · omega
      · split <;> omega
  · intro l t
    simp [normalizeProgress]
  · intro l t
    simp [normalizeProgress]
  · intro l t
    simp [normalizeProgress]
  · intro t l₁ l₂ h12 h2t
    by_cases h1 : l₁ = 0
    · subst h1
      simp [normalizeProgress]
    · by_cases ht : t = 0
      · subst ht
        simp [normalizeProgress]
      · have h2 : l₂ ≠ 0 := by omega
        unfold normalizeProgress
        rw [if_pos ⟨rfl, by simpa using h1, by simpa using ht⟩,
          if_pos ⟨rfl, by simpa using h2, by simpa using ht⟩]
        dsimp only [Option.getD_some]
        apply Int.toNat_le_toNat
        apply Int.floor_le_floor
        have htpos : (0 : ℚ) < (t : ℚ) := by
          exact_mod_cast Nat.pos_of_ne_zero ht
        have hcast : (l₁ : ℚ) ≤ (l₂ : ℚ) := by exact_mod_cast h12
        have hdiv : (l₁ : ℚ) / (t : ℚ) ≤ (l₂ : ℚ) / (t : ℚ) :=
          div_le_div_of_nonneg_right hcast htpos.le
        linarith

/-- Witness for C4 (amended): the bound, the endpoint mapping, and the
within-file monotonicity at the concrete events `loaded 1/2 ≤ loaded 2/2`. -/
theorem normalizeProgress_amended_witness :
    ((ProgressInfo.mk .progress (some 1) (some 2)).loaded.getD 0 ≤
      (ProgressInfo.mk .progress (some 1) (some 2)).total.getD 0) ∧
    normalizeProgress ⟨.progress, some 1, some 2⟩ ≤ 100 ∧
    normalizeProgress ⟨.initiate, none, none⟩ = 0 ∧
    normalizeProgress ⟨.done, none, none⟩ = 100 ∧
    normalizeProgress ⟨.ready, none, none⟩ = 100 ∧
    (1 ≤ 2 ∧ 2 ≤ 2) ∧
    normalizeProgress ⟨.progress, some 1, some 2⟩ ≤
      normalizeProgress ⟨.progress, some 2, some 2⟩ := by
  refine ⟨by decide, ?_, ?_, ?_, ?_, by decide, ?_⟩
  · exact normalizeProgress_amended.1 ⟨.progress, some 1, some 2⟩ (by decide)
  · exact normalizeProgress_amended.2.1 none none
  · exact normalizeProgress_amended.2.2.1 none none
  · exact normalizeProgress_amended.2.2.2.1 none none
  · exact normalizeProgress_amended.2.2.2.2 2 1 2 (by decide) (by decide)

/-- Joining calls: while an in-flight promise exists and no instance is
cached, every further `getSegmenter` call returns that same promise and
leaves the state unchanged. -/
lemma runGetCalls_joined (p : ℕ) (ps : List ℕ) :
    ∀ s : LoaderState, s.segmenterInstance = none → s.loadingPromise = some p →
      runGetCalls s ps = (ps.map (fun _ => GetOutcome.joinedExisting p), s) := by
  induction ps with
  | nil => intro s h1 h2; rfl
  | cons q qs ih =>
    intro s h1 h2
    have hsync : getSegmenterSync s q = (.joinedExisting p, s) := by
      unfold getSegmenterSync
      rw [h1, h2]
    simp only [runGetCalls, hsync, ih s h1 h2, List.map_cons]

/-- C5: in a burst of `getSegmenter` calls that all run before the first
load resolves, the first call starts the one and only load and every later
call joins that same in-flight promise (exactly one `startedLoad` outcome);
and once a load has succeeded (an instance is cached), any call returns the
cached instance with the state unchanged — no new load starts. -/
theorem getSegmenter_dedup :
    (∀ (p : ℕ) (ps : List ℕ),
      (runGetCalls emptyLoader (p :: ps)).1 =
        .startedLoad p :: ps.map (fun _ => .joinedExisting p) ∧
      ((runGetCalls emptyLoader (p :: ps)).1.countP isStart) = 1) ∧
    (∀ (s : LoaderState) (inst q : ℕ), s.segmenterInstance = some inst →
      getSegmenterSync s q = (.cachedInstance inst, s)) := by
  constructor
  · intro p ps
    have hfirst : getSegmenterSync emptyLoader p =
        (.startedLoad p, { segmenterInstance := none, loadingPromise := some p }) := rfl
    have hrest := runGetCalls_joined p ps
      { segmenterInstance := none, loadingPromise := some p } rfl rfl
    have hrun : (runGetCalls emptyLoader (p :: ps)).1 =
        .startedLoad p :: ps.map (fun _ => .joinedExisting p) := by
      simp only [runGetCalls, hfirst, hrest]
    refine ⟨hrun, ?_⟩
    rw [hrun, List.countP_cons_of_pos _ _ (by rfl), List.countP_map]
    have hzero : List.countP (isStart ∘ fun _ => GetOutcome.joinedExisting p) ps = 0 := by
      apply List.countP_eq_zero.mpr
      intro a _
      simp [isStart]
    omega
  · intro s inst q h
    unfold getSegmenterSync
    rw [h]

/-- Witness for C5: three concurrent calls from the empty state — one
started load, two joins of the same promise — and, with instance 3 cached,
a call that returns it without touching the state. -/
theorem getSegmenter_dedup_witness :
    (LoaderState.mk (some 3) none).segmenterInstance = some 3 ∧
    (runGetCalls emptyLoader [7, 8, 9]).1 =
      [.startedLoad 7, .joinedExisting 7, .joinedExisting 7] ∧
    getSegmenterSync (LoaderState.mk (some 3) none) 5 =
      (.cachedInstance 3, LoaderState.mk (some 3) none) := by
  refine ⟨rfl, ?_, ?_⟩
  · have h := (getSegmenter_dedup.1 7 [8, 9]).1
    simpa using h
  · exact getSegmenter_dedup.2 (LoaderState.mk (some 3) none) 3 5 rfl

/-- C6: when the in-flight load fails, the awaiting `getSegmenter` call
re-throws the originating error and resets the state to empty (in-flight
promise cleared, no instance cached), so the next call starts a fresh load
instead of seeing a cached failure. -/
theorem getSegmenter_failure_clears_and_retries (p q e : ℕ) :
    getSegmenterSync emptyLoader p =
      (.startedLoad p, { segmenterInstance := none, loadingPromise := some p }) ∧
    getSegmenterResolve { segmenterInstance := none, loadingPromise := some p }
        (Except.error e) = (Except.error e, emptyLoader) ∧
    getSegmenterSync emptyLoader q =
      (.startedLoad q, { segmenterInstance := none, loadingPromise := some q }) :=
  ⟨rfl, rfl, rfl⟩

end RemoveBg
